import Mathlib

/-!
Shallow embedding of the inference pipeline and the surrounding request
handling of `app/(tabs)/index.tsx` from the rice-leaf classification app.

Modelling conventions:
* JavaScript numbers (IEEE-754 binary64) are modelled as exact rationals `ℚ`.
  Every concrete score and every arithmetic step appearing in the analysed
  behaviour (comparisons, multiplication by 100, rounding to hundredths at
  these magnitudes) is exact in binary64 as well, so the idealisation is
  faithful on the analysed behaviour.
* A `Float32Array` slot is modelled as `Option Nat`: `some b` is the float
  with exact integer value `b` (every byte 0–255 is exactly representable in
  binary32), `none` is `NaN` (the result of storing the JS `undefined` that
  an out-of-bounds typed-array read yields).
* Typed-array writes out of bounds are silently dropped, exactly as in JS;
  `List.set` has precisely this out-of-bounds behaviour, and `l[i]?` has the
  out-of-bounds read behaviour of a typed array (`undefined`, i.e. `none`).
* External effects (image manipulator, file reads, JPEG decoding, the TFLite
  interpreter, AsyncStorage, clocks) are oracles supplied through an `Env`
  record; the surrounding control flow (`try`/`catch`, state updates) is
  embedded directly from the source.
-/

/-- The fixed 7-entry label vocabulary, `LABELS` in `index.tsx`. -/
def LABELS : List String :=
  ["Bacterial Leaf Blight",
   "Brown Spot",
   "Healthy Rice Leaf",
   "Leaf Blast",
   "Leaf Scald",
   "NOT_A_RICE_LEAF",
   "Sheath Blight"]

/-- The fixed advice table, `DISEASE_ADVICE` in `index.tsx`, as an
association list in source order. -/
def DISEASE_ADVICE : List (String × String) :=
  [("Bacterial Leaf Blight", "⚠️ Treatment: Use copper-based sprays. Avoid excessive Nitrogen."),
   ("Brown Spot", "⚠️ Treatment: Improve soil fertility (Potassium/Calcium). Treat seeds."),
   ("Leaf Blast", "⚠️ Treatment: Apply Tricyclazole. Maintain water level."),
   ("Leaf Scald", "⚠️ Treatment: Use clean seeds. Avoid high Nitrogen."),
   ("Sheath Blight", "⚠️ Treatment: Apply Azoxystrobin. Reduce plant density."),
   ("Healthy Rice Leaf", "✅ Good News: Your crop looks healthy!"),
   ("NOT_A_RICE_LEAF", "❓ Unknown: Please try a clearer photo.")]

/-- The loop of step 3 of `analyzeImage`:
`for (let i = 0; i < rawData.data.length; i += 4) \x7b float32Data[p++] = rawData.data[i]; ... \x7d`.
`data` is `rawData.data` (the decoded RGBA byte buffer), `acc` is the
`Float32Array` being filled, `i` and `p` are the source and destination
cursors.  Reads past the end of `data` give `none` (JS `undefined`, stored
as `NaN`); writes past the end of `acc` are dropped (typed-array store). -/
def encodeLoop (data : List Nat) (i p : Nat) (acc : List (Option Nat)) : List (Option Nat) :=
  if i < data.length then
    encodeLoop data (i + 4) (p + 3)
      (((acc.set p data[i]?).set (p + 1) data[(i + 1)]?).set (p + 2) data[(i + 2)]?)
  else acc
termination_by data.length - i
decreasing_by omega

/-- The tensor encoder of `analyzeImage`:
`const float32Data = new Float32Array(224 * 224 * 3)` (zero-initialised)
followed by the fill loop. -/
def encodeTensor (data : List Nat) : List (Option Nat) :=
  encodeLoop data 0 0 (List.replicate (224 * 224 * 3) (some 0))

/-- `Math.max(...probArray)`: `none` models the `-Infinity` returned for an
empty argument list. -/
def jsMathMax : List ℚ → Option ℚ
  | [] => none
  | x :: xs =>
    match jsMathMax xs with
    | none => some x
    | some m => some (if x ≤ m then m else x)

/-- `probArray.indexOf(v)`: the first index whose element equals `v`, or
`-1` when there is none. -/
def jsIndexOf (l : List ℚ) (v : ℚ) : Int :=
  match l with
  | [] => -1
  | x :: xs =>
    if x = v then 0
    else if jsIndexOf xs v = -1 then -1 else jsIndexOf xs v + 1

/-- `labels[i]` for a possibly negative JS index: `LABELS[-1]` and any
out-of-range access give `undefined`, i.e. `none`. -/
def labelAt (labels : List String) (i : Int) : Option String :=
  if i < 0 then none else labels[i.toNat]?

/-- Decimal digits of a natural number (fuel-driven so that it reduces). -/
def natDecimalAux : Nat → Nat → List Char
  | 0, _ => []
  | fuel + 1, n =>
    if n < 10 then [Nat.digitChar n]
    else natDecimalAux fuel (n / 10) ++ [Nat.digitChar (n % 10)]

/-- Decimal rendering of a natural number. -/
def natDecimal (n : Nat) : String := String.mk (natDecimalAux (n + 1) n)

/-- Two-digit rendering of a value below 100. -/
def pad2 (n : Nat) : String := if n < 10 then "0" ++ natDecimal n else natDecimal n

/-- Renders a count of hundredths `n` as the decimal numeral of `n / 100`
with exactly two fraction digits, e.g. `6000 ↦ "60.00"`. -/
def renderCenti (n : Nat) : String := natDecimal (n / 100) ++ "." ++ pad2 (n % 100)

/-- `⌊q⌋` as a natural number, valid for `0 ≤ q` (numerator over
denominator in natural-number division). -/
def floorNonneg (q : ℚ) : Nat := q.num.toNat / q.den

/-- `x.toFixed(2)` of ECMAScript for the magnitudes reachable here
(`|x| < 10²¹`, so the big-number branch of `toFixed` never triggers):
split off the sign, then render the integer `n` for which `n / 100` is
closest to `|x|`, larger `n` on ties — that integer is `⌊100·|x| + 1/2⌋`. -/
def jsToFixed2 (x : ℚ) : String :=
  if x < 0 then "-" ++ renderCenti (floorNonneg (-x * 100 + 1 / 2))
  else renderCenti (floorNonneg (x * 100 + 1 / 2))

/-- The `resultData` record built by `analyzeImage`: `label` is
`LABELS[maxIndex]` (possibly `undefined`, i.e. `none`), `confidence` is
`(maxScore * 100).toFixed(2) + "%"`. -/
structure ResultData where
  label : Option String
  confidence : String
deriving DecidableEq

/-- Steps 6 of `analyzeImage` (the result interpreter):
`maxScore = Math.max(...probArray)`, `maxIndex = probArray.indexOf(maxScore)`,
`label = LABELS[maxIndex]`, `confidence = (maxScore * 100).toFixed(2) + "%"`.
The `none` branch is the empty score vector: `Math.max()` is `-Infinity`,
`indexOf` gives `-1`, `LABELS[-1]` is `undefined`, and
`(-Infinity * 100).toFixed(2)` is the string `"-Infinity"`. -/
def interpretScores (probArray : List ℚ) : ResultData :=
  match jsMathMax probArray with
  | none => { label := none, confidence := "-Infinity%" }
  | some maxScore =>
      { label := labelAt LABELS (jsIndexOf probArray maxScore),
        confidence := jsToFixed2 (maxScore * 100) ++ "%" }

/-- Modelled from the spec (§4.4): the index of the maximum score, ties
resolved by the lowest index — the head wins when it is at least the
maximum of the tail. -/
def specArgmax : List ℚ → Nat
  | [] => 0
  | x :: xs =>
    match jsMathMax xs with
    | none => 0
    | some m => if m ≤ x then 0 else specArgmax xs + 1

/-- Modelled from the spec (§4.4): a nonnegative value rounded to exactly
two decimal places, i.e. the count of hundredths nearest to it (ties
rounding up, `Mathlib`'s `round`), rendered with two fraction digits. -/
def specTwoDecimals (x : ℚ) : String := renderCenti (round (x * 100)).toNat

/-- Modelled from the spec (§4.4): a value rounded to exactly two decimal
places — the sign, then the count of hundredths nearest to the magnitude
(ties rounding away from zero, as `toFixed` does), rendered with exactly
two fraction digits. -/
def specTwoDecimalsSigned (x : ℚ) : String :=
  if x < 0 then "-" ++ specTwoDecimals (-x) else specTwoDecimals x

/-- A JS value reachable from a bracket access on the `DISEASE_ADVICE`
object literal: an own-property advisory string, an inherited member of
`Object.prototype` (a method such as `toString`, or the `__proto__`
accessor — always a truthy non-string), or `undefined`. -/
inductive JsValue
  | str (s : String)
  | protoFn (name : String)
  | undef
deriving DecidableEq

/-- The own property names of `Object.prototype`, inherited by every plain
object literal and therefore visible to `DISEASE_ADVICE[label]`. -/
def OBJECT_PROTOTYPE_KEYS : List String :=
  ["constructor", "hasOwnProperty", "isPrototypeOf", "propertyIsEnumerable",
   "toLocaleString", "toString", "valueOf", "__proto__", "__defineGetter__",
   "__defineSetter__", "__lookupGetter__", "__lookupSetter__"]

/-- `DISEASE_ADVICE[label]`: JS property access on the object literal —
an own key gives its advisory string, otherwise the lookup walks the
prototype chain and finds the `Object.prototype` members, and only a name
absent from both gives `undefined`. -/
def jsPropAccess (label : String) : JsValue :=
  match DISEASE_ADVICE.lookup label with
  | some a => JsValue.str a
  | none =>
    if label ∈ OBJECT_PROTOTYPE_KEYS then JsValue.protoFn label else JsValue.undef

/-- JS truthiness of such a value: a string is truthy iff nonempty,
inherited prototype members (functions, `Object.prototype`) are truthy,
`undefined` is falsy. -/
def jsTruthy : JsValue → Bool
  | JsValue.str s => if s = "" then false else true
  | JsValue.protoFn _ => true
  | JsValue.undef => false

/-- `v || fallback` for a string fallback: the left value when truthy,
otherwise the fallback string. -/
def jsOrString (v : JsValue) (fallback : String) : JsValue :=
  if jsTruthy v then v else JsValue.str fallback

/-- `DISEASE_ADVICE[label] || "Consult an expert."`, the advice lookup as
performed by `addToHistory`, including the prototype chain of the object
literal. -/
def adviceLookup (label : String) : JsValue :=
  jsOrString (jsPropAccess label) "Consult an expert."

/-- `DISEASE_ADVICE[prediction.label] || "Please consult an agricultural expert."`,
the advice lookup as performed by the result card render, including the
prototype chain of the object literal. -/
def adviceDisplay (label : String) : JsValue :=
  jsOrString (jsPropAccess label) "Please consult an agricultural expert."

/-- Advice for a possibly-`undefined` label: a JS bracket access coerces
an `undefined` key to the string `"undefined"`, which is neither an own
key nor an `Object.prototype` member, so the fallback fires. -/
def adviceOf (label : Option String) : JsValue :=
  adviceLookup (match label with | some s => s | none => "undefined")

/-- One entry of the persisted `leaf_history` list. -/
structure HistoryEntry where
  id : String
  label : Option String
  confidence : String
  imageUri : String
  date : String
  advice : JsValue
deriving DecidableEq

/-- Which stage of the `try` block of `analyzeImage` threw. -/
inductive StageError
  | normalizeErr
  | readErr
  | decodeErr
  | runErr
deriving DecidableEq

/-- Oracles for the external effects of one `analyzeImage` request:
`manipulate` is the outcome of `ImageManipulator.manipulateAsync` on the
selected image, `readAsString` of `FileSystem.readAsStringAsync`,
`jpegDecode` of `jpeg.decode` (the RGBA byte buffer `rawData.data`),
`modelRun` of `model.run([float32Data])` (the output vector `outputs[0]`),
`storageGetOk` / `storageSetOk` whether `AsyncStorage.getItem` (plus
`JSON.parse`) and `AsyncStorage.setItem` succeed, and `nowId` / `dateNow`
are `Date.now().toString()` and `new Date().toLocaleString()`. -/
structure Env where
  manipulate : Except StageError String
  readAsString : String → Except StageError String
  jpegDecode : String → Except StageError (List Nat)
  modelRun : List (Option Nat) → Except StageError (List ℚ)
  storageGetOk : Bool
  storageSetOk : Bool
  nowId : String
  dateNow : String

/-- The component state of `App` together with the externally observable
effects: `history` is the stored `leaf_history` content and `alerts` the
sequence of `Alert.alert(title, message)` calls issued so far. -/
structure AppState where
  model : Option Unit
  selectedImage : Option String
  prediction : Option ResultData
  loading : Bool
  history : List HistoryEntry
  alerts : List (String × String)

/-- The `newEntry` record built by `addToHistory`. -/
def mkEntry (env : Env) (rd : ResultData) (uri : String) : HistoryEntry :=
  { id := env.nowId,
    label := rd.label,
    confidence := rd.confidence,
    imageUri := uri,
    date := env.dateNow,
    advice := adviceOf rd.label }

/-- `addToHistory(predictionData, imageUri)`: reads the stored list,
prepends the new entry and stores the first 20 entries; its own
`try`/`catch` swallows every storage failure (`console.error` only), so a
failing read or write leaves the state untouched. -/
def addToHistoryRun (env : Env) (rd : ResultData) (uri : String) (s : AppState) : AppState :=
  if env.storageGetOk then
    if env.storageSetOk then
      { s with history := (mkEntry env rd uri :: s.history).take 20 }
    else s
  else s

/-- The body of the `try` block of `analyzeImage` up to `resultData`:
resize, read as base64, JPEG-decode, encode the tensor, run the model,
interpret the scores.  The tensor encoder and the score interpreter are
total functions (they cannot throw, see the analyses below), so every
pipeline failure is a failure of one of the four effectful stages. -/
def runPipeline (env : Env) : Except StageError ResultData := do
  let uri ← env.manipulate
  let b64 ← env.readAsString uri
  let data ← env.jpegDecode b64
  let probs ← env.modelRun (encodeTensor data)
  pure (interpretScores probs)

/-- `analyzeImage`: the not-ready guard, then `setLoading(true)`, the
`try` block (on success `setPrediction(resultData)` then
`addToHistory(resultData, selectedImage)`), the `catch` block
(`Alert.alert("Error", "Could not analyze image.")`), and the `finally`
(`setLoading(false)`). -/
def analyzeImage (env : Env) (s : AppState) : AppState :=
  match s.model, s.selectedImage with
  | some _, some uri =>
    let s1 := { s with loading := true }
    match runPipeline env with
    | .error _ =>
        { s1 with
          alerts := s1.alerts ++ [("Error", "Could not analyze image.")],
          loading := false }
    | .ok rd =>
        let s2 := { s1 with prediction := some rd }
        let s3 := addToHistoryRun env rd uri s2
        { s3 with loading := false }
  | _, _ => { s with alerts := s.alerts ++ [("Error", "Model not ready yet.")] }

/-- An `ImagePicker` result: a cancellation, or exactly one picked asset
with its URI (`result.assets[0].uri`), per the picker contract used by the
code. -/
inductive PickerResult
  | canceled
  | picked (uri : String)

/-- `handleImageResult`: on a non-cancelled result,
`setSelectedImage(result.assets[0].uri)` then `setPrediction(null)`. -/
def handleImageResult : PickerResult → AppState → AppState
  | .canceled, s => s
  | .picked uri, s => { s with selectedImage := some uri, prediction := none }

/-! ### Lemmas about the tensor-encoding loop -/

/-- The fill loop never changes the size of the destination array
(out-of-bounds stores are dropped, in-bounds stores replace). -/
theorem encodeLoop_length (data : List Nat) :
    ∀ (i p : Nat) (acc : List (Option Nat)), (encodeLoop data i p acc).length = acc.length := by
  have H : ∀ (n i p : Nat) (acc : List (Option Nat)), data.length - i ≤ n →
      (encodeLoop data i p acc).length = acc.length := by
    intro n
    induction n with
    | zero =>
      intro i p acc h
      rw [encodeLoop.eq_def, if_neg (by omega)]
    | succ n ih =>
      intro i p acc h
      rw [encodeLoop.eq_def]
      by_cases hi : i < data.length
      · rw [if_pos hi, ih _ _ _ (by omega)]
        simp [List.length_set]
      · rw [if_neg hi]
  intro i p acc
  exact H data.length i p acc (by omega)


/-- Pointwise characterisation of the fill loop when the remaining input is
exactly `4 * k` bytes: slot `q` receives the byte at source offset
`i + 4 * ((q - p) / 3) + (q - p) % 3` when `q` lies in the written window
`[p, p + 3 * k)` and inside the array, and is untouched otherwise. -/
theorem encodeLoop_char :
    ∀ (k : Nat) (data : List Nat) (i p : Nat) (acc : List (Option Nat)),
      data.length = i + 4 * k →
      ∀ q, (encodeLoop data i p acc)[q]? =
        if p ≤ q ∧ q < p + 3 * k ∧ q < acc.length
        then some (data[(i + 4 * ((q - p) / 3) + (q - p) % 3)]?)
        else acc[q]? := by
  intro k
  induction k with
  | zero =>
    intro data i p acc h q
    rw [encodeLoop.eq_def, if_neg (by omega), if_neg (by omega)]
  | succ k ih =>
    intro data i p acc h q
    have hi : i < data.length := by omega
    rw [encodeLoop.eq_def, if_pos hi,
      ih data (i + 4) (p + 3) _ (by omega) q]
    simp only [List.length_set]
    by_cases h1 : p + 3 ≤ q
    · by_cases h2 : q < p + 3 + 3 * k ∧ q < acc.length
      · rw [if_pos ⟨h1, by omega, by omega⟩, if_pos ⟨by omega, by omega, by omega⟩]
        have harith : i + 4 + 4 * ((q - (p + 3)) / 3) + (q - (p + 3)) % 3 =
            i + 4 * ((q - p) / 3) + (q - p) % 3 := by omega
        rw [harith]
      · rw [if_neg (by omega), if_neg (by omega),
          List.getElem?_set_ne (by omega), List.getElem?_set_ne (by omega),
          List.getElem?_set_ne (by omega)]
    · -- `q < p + 3`: the recursive call leaves `q` alone, only the three
      -- stores of this iteration can matter.
      rw [if_neg (by omega)]
      by_cases hqlen : q < acc.length
      · by_cases hpq : p ≤ q
        · rw [if_pos ⟨hpq, by omega, hqlen⟩]
          by_cases hq0 : q = p
          · subst hq0
            rw [List.getElem?_set_ne (by omega), List.getElem?_set_ne (by omega),
              List.getElem?_set_self hqlen]
            have e : i + 4 * ((q - q) / 3) + (q - q) % 3 = i := by omega
            rw [e]
          · by_cases hq1 : q = p + 1
            · subst hq1
              rw [List.getElem?_set_ne (by omega),
                List.getElem?_set_self (by simpa using hqlen)]
              have e : i + 4 * ((p + 1 - p) / 3) + (p + 1 - p) % 3 = i + 1 := by omega
              rw [e]
            · have hq2 : q = p + 2 := by omega
              subst hq2
              rw [List.getElem?_set_self (by simpa using hqlen)]
              have e : i + 4 * ((p + 2 - p) / 3) + (p + 2 - p) % 3 = i + 2 := by omega
              rw [e]
        · rw [if_neg (by omega),
            List.getElem?_set_ne (by omega), List.getElem?_set_ne (by omega),
            List.getElem?_set_ne (by omega)]
      · rw [if_neg (by omega),
          List.getElem?_eq_none (l := ((acc.set p data[i]?).set (p + 1)
            data[(i + 1)]?).set (p + 2) data[(i + 2)]?) (by simp [List.length_set]; omega),
          List.getElem?_eq_none (by omega)]

/-- Slots at or beyond the final write cursor are never touched by the fill
loop (`k` is any iteration bound covering the remaining input). -/
theorem encodeLoop_untouched :
    ∀ (k : Nat) (data : List Nat) (i p : Nat) (acc : List (Option Nat)),
      data.length ≤ i + 4 * k →
      ∀ q, p + 3 * k ≤ q → (encodeLoop data i p acc)[q]? = acc[q]? := by
  intro k
  induction k with
  | zero =>
    intro data i p acc h q hq
    rw [encodeLoop.eq_def, if_neg (by omega)]
  | succ k ih =>
    intro data i p acc h q hq
    by_cases hi : i < data.length
    · rw [encodeLoop.eq_def, if_pos hi,
        ih data (i + 4) (p + 3) _ (by omega) q (by omega),
        List.getElem?_set_ne (by omega), List.getElem?_set_ne (by omega),
        List.getElem?_set_ne (by omega)]
    · rw [encodeLoop.eq_def, if_neg hi]

/-- C1: for every 224×224 RGBA pixel buffer (exactly `224·224·4` bytes, in
row-major scan order) the tensor encoder produces a tensor of length
exactly 150 528 = `224·224·3`; slot `3·pix + c` (channel `c < 3` of pixel
`pix`) holds exactly the byte at buffer offset `4·pix + c` — the R, G, B
bytes of that pixel in order, unchanged (an integer byte is exact in
binary32); and every output slot is such an R/G/B byte, so no
alpha-channel byte (offsets `≡ 3 mod 4`) ever appears in the output. -/
theorem C1_encoder_rgb (data : List Nat) (h : data.length = 224 * 224 * 4) :
    (encodeTensor data).length = 224 * 224 * 3 ∧
    (∀ pix c, pix < 224 * 224 → c < 3 →
      (encodeTensor data)[(3 * pix + c)]? = some (data[(4 * pix + c)]?)) ∧
    (∀ q, q < 224 * 224 * 3 → ∃ pix c, c < 3 ∧ q = 3 * pix + c ∧
      4 * pix + c < data.length ∧ (4 * pix + c) % 4 ≠ 3 ∧
      (encodeTensor data)[q]? = some (data[(4 * pix + c)]?)) := by
  have hchar := encodeLoop_char (224 * 224) data 0 0
    (List.replicate (224 * 224 * 3) (some 0)) (by omega)
  refine ⟨?_, ?_, ?_⟩
  · rw [encodeTensor, encodeLoop_length, List.length_replicate]
  · intro pix c hpix hc
    rw [encodeTensor, hchar, if_pos ⟨by omega, by omega,
      by rw [List.length_replicate]; omega⟩]
    have e : 0 + 4 * ((3 * pix + c - 0) / 3) + (3 * pix + c - 0) % 3 = 4 * pix + c := by
      omega
    rw [e]
  · intro q hq
    refine ⟨q / 3, q % 3, by omega, by omega, by omega, by omega, ?_⟩
    rw [encodeTensor, hchar, if_pos ⟨by omega, by omega,
      by rw [List.length_replicate]; omega⟩]
    have e : 0 + 4 * ((q - 0) / 3) + (q - 0) % 3 = 4 * (q / 3) + q % 3 := by omega
    rw [e]

/-- C1 witness: the encoder output for a concrete full-size buffer has the
claimed length, and slot 1 of the tensor is pixel 0's green byte. -/
theorem C1_encoder_rgb_witness :
    (encodeTensor (List.replicate (224 * 224 * 4) 7)).length = 224 * 224 * 3 ∧
    (encodeTensor (List.replicate (224 * 224 * 4) 7))[(3 * 0 + 1)]? =
      some ((List.replicate (224 * 224 * 4) 7)[(4 * 0 + 1)]?) :=
  ⟨(C1_encoder_rgb _ (by rw [List.length_replicate])).1,
   (C1_encoder_rgb _ (by rw [List.length_replicate])).2.1 0 1 (by omega) (by omega)⟩

/-- C2 counterexample: on the empty pixel buffer (length `0 ≠ 224·224·4`)
the tensor encoder raises no error at all — it returns the zero-initialised
tensor of full length 150 528, i.e. it silently pads. -/
theorem C2_no_error_counterexample :
    encodeTensor ([] : List Nat) = List.replicate (224 * 224 * 3) (some 0) ∧
    ([] : List Nat).length ≠ 224 * 224 * 4 := by
  constructor
  · rw [encodeTensor, encodeLoop.eq_def, if_neg (by simp)]
  · decide

/-- C2 as amended: the tensor encoder never fails.  For every pixel buffer,
whatever its length, the output tensor has length exactly 150 528; the loop
writes only the first `3 · ⌈length/4⌉` slots, and every slot beyond them
keeps its initial `0.0` — a short buffer is silently zero-padded (and for a
long buffer the out-of-range stores are silently dropped, the length
staying 150 528). -/
theorem C2_padding_amended (data : List Nat) :
    (encodeTensor data).length = 224 * 224 * 3 ∧
    (∀ q, 3 * ((data.length + 3) / 4) ≤ q → q < 224 * 224 * 3 →
      (encodeTensor data)[q]? = some (some 0)) := by
  constructor
  · rw [encodeTensor, encodeLoop_length, List.length_replicate]
  · intro q hq hq'
    rw [encodeTensor,
      encodeLoop_untouched ((data.length + 3) / 4) data 0 0 _ (by omega) q (by omega),
      List.getElem?_replicate, if_pos hq']

/-- C2 amended witness: a 4-byte buffer (one pixel, not a legal 224×224
buffer) yields a full-length tensor whose slot 3 is still the initial 0. -/
theorem C2_padding_amended_witness :
    (encodeTensor [5, 6, 7, 8]).length = 224 * 224 * 3 ∧
    (encodeTensor [5, 6, 7, 8])[3]? = some (some 0) :=
  ⟨(C2_padding_amended [5, 6, 7, 8]).1,
   (C2_padding_amended [5, 6, 7, 8]).2 3 (by decide) (by omega)⟩

/-! ### Lemmas about the result interpreter -/

/-- `Math.max` over a nonempty list never yields `-Infinity`. -/
theorem jsMathMax_ne_none (x : ℚ) (xs : List ℚ) : jsMathMax (x :: xs) ≠ none := by
  cases hx : jsMathMax xs <;> simp [jsMathMax, hx]

/-- The maximum returned by `Math.max` is one of the arguments. -/
theorem jsMathMax_mem : ∀ (l : List ℚ) (m : ℚ), jsMathMax l = some m → m ∈ l := by
  intro l
  induction l with
  | nil => intro m h; simp [jsMathMax] at h
  | cons x xs ih =>
    intro m h
    cases hx : jsMathMax xs with
    | none =>
      rw [jsMathMax, hx] at h
      simp only [Option.some.injEq] at h
      exact h ▸ List.mem_cons_self x xs
    | some m' =>
      rw [jsMathMax, hx] at h
      simp only [Option.some.injEq] at h
      by_cases hle : x ≤ m'
      · rw [if_pos hle] at h
        exact h ▸ List.mem_cons_of_mem x (ih m' hx)
      · rw [if_neg hle] at h
        exact h ▸ List.mem_cons_self x xs

/-- The maximum returned by `Math.max` bounds every argument. -/
theorem jsMathMax_is_ub : ∀ (l : List ℚ) (m : ℚ), jsMathMax l = some m → ∀ x ∈ l, x ≤ m := by
  intro l
  induction l with
  | nil => intro m h; simp [jsMathMax] at h
  | cons y xs ih =>
    intro m h x hx
    cases hy : jsMathMax xs with
    | none =>
      have hxs : xs = [] := by
        cases xs with
        | nil => rfl
        | cons z zs => exact absurd hy (jsMathMax_ne_none _ _)
      subst hxs
      rw [jsMathMax, hy] at h
      simp only [Option.some.injEq] at h
      rcases List.mem_cons.mp hx with hxy | hmem
      · exact le_of_eq (hxy.trans h)
      · simp at hmem
    | some m' =>
      rw [jsMathMax, hy] at h
      simp only [Option.some.injEq] at h
      rcases List.mem_cons.mp hx with hxy | hmem
      · subst hxy
        by_cases hle : x ≤ m'
        · rw [if_pos hle] at h
          exact h ▸ hle
        · rw [if_neg hle] at h
          exact le_of_eq h
      · have hxm' := ih m' hy x hmem
        by_cases hle : y ≤ m'
        · rw [if_pos hle] at h
          exact h ▸ hxm'
        · rw [if_neg hle] at h
          exact h ▸ hxm'.trans (le_of_lt (lt_of_not_le hle))

/-- `indexOf` on a member: nonnegative, in range, hits the value, and no
earlier index holds the value (first-occurrence semantics). -/
theorem jsIndexOf_spec : ∀ (l : List ℚ) (v : ℚ), v ∈ l →
    0 ≤ jsIndexOf l v ∧ (jsIndexOf l v).toNat < l.length ∧
    l[(jsIndexOf l v).toNat]? = some v ∧
    ∀ j, j < (jsIndexOf l v).toNat → l[j]? ≠ some v := by
  intro l
  induction l with
  | nil => intro v hv; simp at hv
  | cons x xs ih =>
    intro v hv
    by_cases hx : x = v
    · refine ⟨by simp [jsIndexOf, hx], ?_, ?_, ?_⟩
      · simp [jsIndexOf, hx]
      · simp [jsIndexOf, hx]
      · intro j hj
        simp [jsIndexOf, hx] at hj
    · have hv' : v ∈ xs := by
        rcases List.mem_cons.mp hv with hvx | hmem
        · exact absurd hvx.symm hx
        · exact hmem
      obtain ⟨h0, hlen, hget, hpre⟩ := ih v hv'
      have hne : ¬jsIndexOf xs v = -1 := by omega
      have hred : jsIndexOf (x :: xs) v = jsIndexOf xs v + 1 := by
        rw [jsIndexOf, if_neg hx, if_neg hne]
      rw [hred]
      have htn : (jsIndexOf xs v + 1).toNat = (jsIndexOf xs v).toNat + 1 := by omega
      refine ⟨by omega, ?_, ?_, ?_⟩
      · rw [htn]
        simpa using hlen
      · rw [htn]
        simpa using hget
      · intro j hj
        rw [htn] at hj
        cases j with
        | zero =>
          simp only [List.getElem?_cons_zero]
          intro hcontra
          exact hx (Option.some.inj hcontra)
        | succ j =>
          simpa using hpre j (by omega)

/-- A nonempty score vector has a maximum. -/
theorem jsMathMax_of_ne_nil (l : List ℚ) (h : l ≠ []) : ∃ m, jsMathMax l = some m := by
  cases l with
  | nil => exact absurd rfl h
  | cons x xs =>
    cases hx : jsMathMax (x :: xs) with
    | none => exact absurd hx (jsMathMax_ne_none _ _)
    | some m => exact ⟨m, rfl⟩

/-- The code's `indexOf`-of-the-maximum computes exactly the spec's
lowest-index argmax. -/
theorem jsIndexOf_max_eq_specArgmax :
    ∀ (l : List ℚ) (m : ℚ), jsMathMax l = some m →
      (jsIndexOf l m).toNat = specArgmax l := by
  intro l
  induction l with
  | nil => intro m h; simp [jsMathMax] at h
  | cons x xs ih =>
    intro m h
    cases hx : jsMathMax xs with
    | none =>
      have hxs : xs = [] := by
        cases xs with
        | nil => rfl
        | cons z zs => exact absurd hx (jsMathMax_ne_none _ _)
      subst hxs
      rw [jsMathMax, hx] at h
      simp only [Option.some.injEq] at h
      subst h
      simp [jsIndexOf, specArgmax, jsMathMax]
    | some m' =>
      rw [jsMathMax, hx] at h
      simp only [Option.some.injEq] at h
      simp only [specArgmax, hx]
      by_cases hle : m' ≤ x
      · rw [if_pos hle]
        have hm : m = x := by
          by_cases hxle : x ≤ m'
          · rw [if_pos hxle] at h
            exact h.symm.trans (le_antisymm hle hxle)
          · rw [if_neg hxle] at h
            exact h.symm
        rw [jsIndexOf, if_pos hm.symm]
        rfl
      · rw [if_neg hle]
        have hm : m = m' := by
          have hxle : x ≤ m' := le_of_lt (lt_of_not_le hle)
          rw [if_pos hxle] at h
          exact h.symm
        subst hm
        have hxm : ¬x = m := fun hc => hle (le_of_eq (hc.symm))
        obtain ⟨h0, _, _, _⟩ := jsIndexOf_spec xs m (jsMathMax_mem xs m hx)
        have hne : ¬jsIndexOf xs m = -1 := by omega
        rw [jsIndexOf, if_neg hxm, if_neg hne]
        have := ih m hx
        omega

/-- `floorNonneg` is a lower bound on a nonnegative rational. -/
theorem floorNonneg_le (q : ℚ) (hq : 0 ≤ q) : (floorNonneg q : ℚ) ≤ q := by
  have hden : (0 : ℚ) < (q.den : ℚ) := by exact_mod_cast q.den_pos
  rw [← mul_le_mul_right hden]
  rw [Rat.mul_den_eq_num]
  have hnum : (q.num.toNat : ℤ) = q.num := Int.toNat_of_nonneg (Rat.num_nonneg.mpr hq)
  have h1 : floorNonneg q * q.den ≤ q.num.toNat := Nat.div_mul_le_self _ _
  calc (floorNonneg q : ℚ) * (q.den : ℚ)
      = ((floorNonneg q * q.den : Nat) : ℚ) := by push_cast; ring
    _ ≤ ((q.num.toNat : Nat) : ℚ) := by exact_mod_cast h1
    _ = (q.num : ℚ) := by exact_mod_cast hnum

/-- A nonnegative rational is below its `floorNonneg` plus one. -/
theorem lt_floorNonneg_add_one (q : ℚ) (hq : 0 ≤ q) : q < floorNonneg q + 1 := by
  have hden : (0 : ℚ) < (q.den : ℚ) := by exact_mod_cast q.den_pos
  rw [← mul_lt_mul_right hden]
  rw [Rat.mul_den_eq_num]
  have hnum : (q.num.toNat : ℤ) = q.num := Int.toNat_of_nonneg (Rat.num_nonneg.mpr hq)
  have h1 : q.num.toNat < (floorNonneg q + 1) * q.den :=
    (Nat.div_lt_iff_lt_mul q.den_pos).mp (Nat.lt_succ_self _)
  calc (q.num : ℚ) = ((q.num.toNat : Nat) : ℚ) := by exact_mod_cast hnum.symm
    _ < (((floorNonneg q + 1) * q.den : Nat) : ℚ) := by exact_mod_cast h1
    _ = ((floorNonneg q : ℚ) + 1) * (q.den : ℚ) := by push_cast; ring

/-- For a nonnegative rational, `floorNonneg` agrees with the floor. -/
theorem floorNonneg_eq_floor (q : ℚ) (hq : 0 ≤ q) : (floorNonneg q : ℤ) = ⌊q⌋ := by
  symm
  rw [Int.floor_eq_iff]
  constructor
  · exact_mod_cast floorNonneg_le q hq
  · exact_mod_cast lt_floorNonneg_add_one q hq

/-- For nonnegative `x`, the code’s `toFixed(2)` renders the hundredth
count `round (x·100)` — the spec’s “rounded to two decimal places”. -/
theorem jsToFixed2_eq_specTwoDecimals (x : ℚ) (hx : 0 ≤ x) :
    jsToFixed2 x = specTwoDecimals x := by
  rw [jsToFixed2, if_neg (not_lt.mpr hx), specTwoDecimals, round_eq]
  congr 1
  have hq : 0 ≤ x * 100 + 1 / 2 := by positivity
  have h := floorNonneg_eq_floor (x * 100 + 1 / 2) hq
  omega

/-- The code’s `toFixed(2)` renders every value — of either sign — as the
spec’s signed two-decimal rounding. -/
theorem jsToFixed2_eq_specSigned (x : ℚ) :
    jsToFixed2 x = specTwoDecimalsSigned x := by
  by_cases hx : x < 0
  · rw [specTwoDecimalsSigned, if_pos hx, jsToFixed2, if_pos hx,
      ← jsToFixed2_eq_specTwoDecimals (-x) (by linarith)]
    rw [jsToFixed2, if_neg (by linarith)]
  · rw [specTwoDecimalsSigned, if_neg hx]
    exact jsToFixed2_eq_specTwoDecimals x (by linarith)

/-- C3 counterexample: the interpreter accepts a ScoreVector of length 5
against the 7-label vocabulary and returns the label at its argmax index
(`"Leaf Scald"`, index 4) — it raises no `EmptyScoreVectorError` and
performs no length validation at all. -/
theorem C3_length_mismatch_counterexample :
    (interpretScores [0, 0, 0, 0, 1]).label = some "Leaf Scald" ∧
    ([0, 0, 0, 0, 1] : List ℚ).length ≠ LABELS.length := by
  constructor
  · rfl
  · decide

/-- C3 as amended: the interpreter performs no length validation and never
fails; every non-empty ScoreVector of length at most 7 (the `LABELS`
length) yields exactly the label at its argmax index (`specArgmax`, an
in-range index), hence a defined label — in particular a length-5 vector
is accepted and mapped to a label rather than rejected.  An empty vector
yields an undefined label and the confidence string `"-Infinity%"`, still
without any error. -/
theorem C3_no_validation_amended :
    (∀ l : List ℚ, l ≠ [] → l.length ≤ LABELS.length →
      (interpretScores l).label = LABELS[specArgmax l]? ∧
      specArgmax l < l.length ∧
      ((interpretScores l).label).isSome = true) ∧
    interpretScores [] = { label := none, confidence := "-Infinity%" } := by
  constructor
  · intro l hne hlen
    obtain ⟨m, hm⟩ := jsMathMax_of_ne_nil l hne
    obtain ⟨h0, hlt, _, _⟩ := jsIndexOf_spec l m (jsMathMax_mem l m hm)
    have heq := jsIndexOf_max_eq_specArgmax l m hm
    have hlab : (interpretScores l).label = LABELS[specArgmax l]? := by
      simp only [interpretScores, hm]
      rw [labelAt, if_neg (by omega), heq]
    refine ⟨hlab, by omega, ?_⟩
    rw [hlab, List.getElem?_eq_getElem (by omega)]
    rfl
  · rfl

/-- C3 amended witness: a length-3 ScoreVector gets the label at its
argmax index. -/
theorem C3_no_validation_amended_witness :
    (interpretScores [1/4, 1/4, 1/2]).label = LABELS[specArgmax [1/4, 1/4, 1/2]]? ∧
    specArgmax [1/4, 1/4, 1/2] < ([1/4, 1/4, 1/2] : List ℚ).length ∧
    ((interpretScores [1/4, 1/4, 1/2]).label).isSome = true :=
  C3_no_validation_amended.1 [1/4, 1/4, 1/2] (by simp) (by decide)

/-- C4: for every ScoreVector of `LABELS` length the interpreter returns
the label at the spec's argmax index (`specArgmax`, the lowest index
attaining the maximum): that slot holds a value `m` bounding every entry,
and every earlier entry is strictly below `m` (ties resolved by lowest
index, first occurrence in scan order, via `indexOf`).  In particular the
tied vector `[0.5, 0.5, 0, 0, 0, 0, 0]` yields index 0 and its label. -/
theorem C4_argmax_first :
    (∀ l : List ℚ, l.length = LABELS.length →
      (interpretScores l).label = LABELS[specArgmax l]? ∧
      ∃ m, l[specArgmax l]? = some m ∧
        (∀ (j : Nat) (x : ℚ), l[j]? = some x → x ≤ m) ∧
        (∀ (j : Nat) (x : ℚ), j < specArgmax l → l[j]? = some x → x < m)) ∧
    specArgmax [1/2, 1/2, 0, 0, 0, 0, 0] = 0 ∧
    (interpretScores [1/2, 1/2, 0, 0, 0, 0, 0]).label = some "Bacterial Leaf Blight" := by
  refine ⟨?_, ?_, ?_⟩
  · intro l hlen
    have hne : l ≠ [] := by
      intro h
      rw [h] at hlen
      simp [LABELS] at hlen
    obtain ⟨m, hm⟩ := jsMathMax_of_ne_nil l hne
    obtain ⟨h0, hlt, hget, hpre⟩ := jsIndexOf_spec l m (jsMathMax_mem l m hm)
    have heq := jsIndexOf_max_eq_specArgmax l m hm
    constructor
    · simp only [interpretScores, hm]
      rw [labelAt, if_neg (by omega), heq]
    · refine ⟨m, by rw [← heq]; exact hget, ?_, ?_⟩
      · intro j x hjx
        exact jsMathMax_is_ub l m hm x (List.getElem?_mem hjx)
      · intro j x hj hjx
        have hle := jsMathMax_is_ub l m hm x (List.getElem?_mem hjx)
        have hne' : l[j]? ≠ some m := hpre j (by omega)
        refine lt_of_le_of_ne hle ?_
        intro hxm
        exact hne' (hxm ▸ hjx)
  · norm_num [specArgmax, jsMathMax]
  · norm_num [interpretScores, jsMathMax, jsIndexOf, labelAt]
    decide

/-- C4 witness: a concrete vector of `LABELS` length, interpreted at the
spec argmax index. -/
theorem C4_argmax_first_witness :
    (interpretScores [0, 1, 1, 0, 0, 0, 0]).label =
      LABELS[specArgmax [0, 1, 1, 0, 0, 0, 0]]? :=
  (C4_argmax_first.1 [0, 1, 1, 0, 0, 0, 0] (by decide)).1

/-- C5: for every ScoreVector with maximum `m` — of either sign — the
interpreter's confidence string is `m·100` rounded to exactly two decimal
places (sign, then the hundredth count nearest to the magnitude, ties away
from zero, as `toFixed` rounds) followed by a trailing `%`; the rounded
count is within one half of the exact magnitude.  In particular the spec's
example vector with maximum 0.6 yields `"60.00%"` and the label at
index 2. -/
theorem C5_confidence_format :
    (∀ (l : List ℚ) (m : ℚ), jsMathMax l = some m →
      (interpretScores l).confidence = specTwoDecimalsSigned (m * 100) ++ "%" ∧
      abs (((round (abs (m * 100 * 100)) : ℤ) : ℚ) - abs (m * 100 * 100)) ≤ 1 / 2) ∧
    (interpretScores [1/10, 1/20, 3/5, 1/10, 1/20, 1/20, 1/20]).confidence = "60.00%" ∧
    (interpretScores [1/10, 1/20, 3/5, 1/10, 1/20, 1/20, 1/20]).label =
      some "Healthy Rice Leaf" := by
  refine ⟨?_, ?_, ?_⟩
  · intro l m hm
    constructor
    · simp only [interpretScores, hm]
      rw [jsToFixed2_eq_specSigned]
    · rw [abs_sub_comm]
      exact abs_sub_round (abs (m * 100 * 100))
  · norm_num [interpretScores, jsMathMax, jsIndexOf, labelAt, jsToFixed2, floorNonneg]
    decide
  · norm_num [interpretScores, jsMathMax, jsIndexOf, labelAt]
    decide

/-- C5 witness: a singleton ScoreVector with the negative maximum −2,
exercising the sign branch of the formatting contract. -/
theorem C5_confidence_format_witness :
    (interpretScores [-2]).confidence = specTwoDecimalsSigned ((-2 : ℚ) * 100) ++ "%" ∧
    abs (((round (abs ((-2 : ℚ) * 100 * 100)) : ℤ) : ℚ) - abs ((-2 : ℚ) * 100 * 100)) ≤ 1 / 2 :=
  C5_confidence_format.1 [-2] (-2 : ℚ) (by rfl)

/-! ### Request-boundary and state claims -/

/-- C6: whenever any stage of the pipeline fails (resize, file read, JPEG
decode or model run — the encoder and interpreter are total and cannot
throw), `analyzeImage` catches the failure at the request boundary and
converts it into exactly one user-facing notification
(`Alert.alert("Error", "Could not analyze image.")`); no partial or
garbled diagnosis is surfaced — the prediction state and the stored
history are left exactly as they were before the request. -/
theorem C6_failure_boundary :
    ∀ (env : Env) (s : AppState) (uri : String) (e : StageError),
      s.model = some () → s.selectedImage = some uri →
      runPipeline env = .error e →
      (analyzeImage env s).prediction = s.prediction ∧
      (analyzeImage env s).history = s.history ∧
      (analyzeImage env s).alerts =
        s.alerts ++ [("Error", "Could not analyze image.")] := by
  intro env s uri e hm hs hp
  rcases s with ⟨mo, si, pr, lo, hist, al⟩
  simp only at hm hs
  subst hm
  subst hs
  simp [analyzeImage, hp]

/-- C6 witness: a concrete environment whose JPEG decode stage fails, on a
concrete ready state. -/
theorem C6_failure_boundary_witness :
    (analyzeImage
        { manipulate := .ok "resized.jpg",
          readAsString := fun _ => .ok "b64",
          jpegDecode := fun _ => .error .decodeErr,
          modelRun := fun _ => .ok [1, 0, 0, 0, 0, 0, 0],
          storageGetOk := true,
          storageSetOk := true,
          nowId := "1",
          dateNow := "d" }
        { model := some (),
          selectedImage := some "leaf.jpg",
          prediction := none,
          loading := false,
          history := [],
          alerts := [] }).prediction = none ∧
    (analyzeImage
        { manipulate := .ok "resized.jpg",
          readAsString := fun _ => .ok "b64",
          jpegDecode := fun _ => .error .decodeErr,
          modelRun := fun _ => .ok [1, 0, 0, 0, 0, 0, 0],
          storageGetOk := true,
          storageSetOk := true,
          nowId := "1",
          dateNow := "d" }
        { model := some (),
          selectedImage := some "leaf.jpg",
          prediction := none,
          loading := false,
          history := [],
          alerts := [] }).history = [] ∧
    (analyzeImage
        { manipulate := .ok "resized.jpg",
          readAsString := fun _ => .ok "b64",
          jpegDecode := fun _ => .error .decodeErr,
          modelRun := fun _ => .ok [1, 0, 0, 0, 0, 0, 0],
          storageGetOk := true,
          storageSetOk := true,
          nowId := "1",
          dateNow := "d" }
        { model := some (),
          selectedImage := some "leaf.jpg",
          prediction := none,
          loading := false,
          history := [],
          alerts := [] }).alerts = [] ++ [("Error", "Could not analyze image.")] :=
  C6_failure_boundary _ _ "leaf.jpg" .decodeErr rfl rfl rfl

/-- Every advisory string stored in `DISEASE_ADVICE` is nonempty, hence
truthy in JS. -/
theorem lookup_advice_ne_empty (k a : String)
    (h : DISEASE_ADVICE.lookup k = some a) : ¬a = "" := by
  simp only [DISEASE_ADVICE, List.lookup] at h
  repeat' split at h
  all_goals first
    | (injection h with h; subst h; decide)
    | exact Option.noConfusion h

/-- C7 counterexample: the label `"toString"` is not present in the advice
table, yet neither lookup site returns the generic fallback — the JS
bracket access finds the inherited, truthy `Object.prototype.toString`, so
the `||` never fires and the program surfaces a non-string member instead
of the consult-an-expert message. -/
theorem C7_prototype_counterexample :
    DISEASE_ADVICE.lookup "toString" = none ∧
    adviceLookup "toString" = JsValue.protoFn "toString" ∧
    adviceDisplay "toString" = JsValue.protoFn "toString" := by
  refine ⟨by rfl, by rfl, by rfl⟩

/-- C7 as amended: the advice lookup never throws, but it is not the
claimed table-or-fallback map on all strings.  A label that is an own key
of `DISEASE_ADVICE` returns its fixed advisory string at both lookup
sites; a label that is absent from the table but names an inherited
`Object.prototype` member (such as `"toString"` or `"constructor"`)
returns that truthy inherited member, never the fallback; only a label
absent from both returns the generic consult-an-expert message of the
respective site. -/
theorem C7_advice_amended :
    ∀ label : String,
      (∀ a, DISEASE_ADVICE.lookup label = some a →
        adviceLookup label = JsValue.str a ∧ adviceDisplay label = JsValue.str a) ∧
      (DISEASE_ADVICE.lookup label = none → label ∈ OBJECT_PROTOTYPE_KEYS →
        adviceLookup label = JsValue.protoFn label ∧
        adviceDisplay label = JsValue.protoFn label) ∧
      (DISEASE_ADVICE.lookup label = none → label ∉ OBJECT_PROTOTYPE_KEYS →
        adviceLookup label = JsValue.str "Consult an expert." ∧
        adviceDisplay label = JsValue.str "Please consult an agricultural expert.") := by
  intro label
  refine ⟨?_, ?_, ?_⟩
  · intro a ha
    have hne := lookup_advice_ne_empty label a ha
    constructor
    · simp [adviceLookup, jsOrString, jsPropAccess, jsTruthy, ha, hne]
    · simp [adviceDisplay, jsOrString, jsPropAccess, jsTruthy, ha, hne]
  · intro hnone hmem
    constructor
    · simp [adviceLookup, jsOrString, jsPropAccess, jsTruthy, hnone, hmem]
    · simp [adviceDisplay, jsOrString, jsPropAccess, jsTruthy, hnone, hmem]
  · intro hnone hmem
    constructor
    · simp [adviceLookup, jsOrString, jsPropAccess, jsTruthy, hnone, hmem]
    · simp [adviceDisplay, jsOrString, jsPropAccess, jsTruthy, hnone, hmem]

/-- C7 amended witness: a present label returns its table entry; a label
absent from the table and from `Object.prototype` returns the fallback of
each site. -/
theorem C7_advice_amended_witness :
    adviceLookup "Leaf Blast" =
      JsValue.str "⚠️ Treatment: Apply Tricyclazole. Maintain water level." ∧
    adviceLookup "Rust" = JsValue.str "Consult an expert." ∧
    adviceDisplay "Rust" = JsValue.str "Please consult an agricultural expert." :=
  ⟨((C7_advice_amended "Leaf Blast").1 _ (by rfl)).1,
   ((C7_advice_amended "Rust").2.2 (by rfl) (by decide)).1,
   ((C7_advice_amended "Rust").2.2 (by rfl) (by decide)).2⟩

/-- C8: whatever the previously stored history holds, a successfully
persisted diagnosis is stored with the new entry first and the stored list
never exceeds 20 entries (`[newEntry, ...historyArray].slice(0, 20)`). -/
theorem C8_history_bound :
    ∀ (env : Env) (rd : ResultData) (uri : String) (s : AppState),
      env.storageGetOk = true → env.storageSetOk = true →
      (addToHistoryRun env rd uri s).history.head? = some (mkEntry env rd uri) ∧
      (addToHistoryRun env rd uri s).history.length ≤ 20 := by
  intro env rd uri s hg hset
  rw [addToHistoryRun, if_pos hg, if_pos hset]
  constructor
  · rw [List.take_succ_cons]
    rfl
  · exact List.length_take_le _ _

/-- C8 witness: concrete entry prepended to a concrete prior history. -/
theorem C8_history_bound_witness :
    (addToHistoryRun
        { manipulate := .ok "r.jpg",
          readAsString := fun _ => .ok "b",
          jpegDecode := fun _ => .ok [],
          modelRun := fun _ => .ok [],
          storageGetOk := true,
          storageSetOk := true,
          nowId := "42",
          dateNow := "today" }
        { label := some "Brown Spot", confidence := "99.00%" } "leaf.jpg"
        { model := some (),
          selectedImage := some "leaf.jpg",
          prediction := none,
          loading := false,
          history := [],
          alerts := [] }).history.head? =
      some (mkEntry
        { manipulate := .ok "r.jpg",
          readAsString := fun _ => .ok "b",
          jpegDecode := fun _ => .ok [],
          modelRun := fun _ => .ok [],
          storageGetOk := true,
          storageSetOk := true,
          nowId := "42",
          dateNow := "today" }
        { label := some "Brown Spot", confidence := "99.00%" } "leaf.jpg") ∧
    (addToHistoryRun
        { manipulate := .ok "r.jpg",
          readAsString := fun _ => .ok "b",
          jpegDecode := fun _ => .ok [],
          modelRun := fun _ => .ok [],
          storageGetOk := true,
          storageSetOk := true,
          nowId := "42",
          dateNow := "today" }
        { label := some "Brown Spot", confidence := "99.00%" } "leaf.jpg"
        { model := some (),
          selectedImage := some "leaf.jpg",
          prediction := none,
          loading := false,
          history := [],
          alerts := [] }).history.length ≤ 20 :=
  C8_history_bound _ _ "leaf.jpg" _ rfl rfl

/-- C9: on every non-cancelled picker result the selected image is replaced
and the prediction is reset to `null` in the same update, so a surfaced
diagnosis never refers to a previously selected image. -/
theorem C9_prediction_reset :
    ∀ (uri : String) (s : AppState),
      (handleImageResult (PickerResult.picked uri) s).prediction = none ∧
      (handleImageResult (PickerResult.picked uri) s).selectedImage = some uri := by
  intro uri s
  constructor <;> rfl

/-- C10: a history-storage failure (failing read-plus-parse or failing
write) is swallowed inside `addToHistory`: after a successful pipeline run
the surfaced diagnosis is exactly the interpreter's result, the stored
history is unchanged, and no user-facing alert is raised. -/
theorem C10_storage_failure_isolated :
    ∀ (env : Env) (s : AppState) (uri : String) (rd : ResultData),
      s.model = some () → s.selectedImage = some uri →
      runPipeline env = .ok rd →
      (env.storageGetOk = false ∨ env.storageSetOk = false) →
      (analyzeImage env s).prediction = some rd ∧
      (analyzeImage env s).history = s.history ∧
      (analyzeImage env s).alerts = s.alerts := by
  intro env s uri rd hm hs hp hfail
  rcases s with ⟨mo, si, pr, lo, hist, al⟩
  simp only at hm hs
  subst hm
  subst hs
  rcases hfail with hf | hf
  · simp [analyzeImage, addToHistoryRun, hp, hf]
  · cases hg : env.storageGetOk <;> simp [analyzeImage, addToHistoryRun, hp, hf, hg]

/-- C10 witness: a concrete run whose storage read fails; the diagnosis
survives, history and alerts are untouched. -/
theorem C10_storage_failure_isolated_witness :
    (analyzeImage
        { manipulate := .ok "r.jpg",
          readAsString := fun _ => .ok "b",
          jpegDecode := fun _ => .ok [],
          modelRun := fun _ => .ok [1, 0, 0, 0, 0, 0, 0],
          storageGetOk := false,
          storageSetOk := true,
          nowId := "1",
          dateNow := "d" }
        { model := some (),
          selectedImage := some "leaf.jpg",
          prediction := none,
          loading := false,
          history := [],
          alerts := [] }).prediction = some (interpretScores [1, 0, 0, 0, 0, 0, 0]) ∧
    (analyzeImage
        { manipulate := .ok "r.jpg",
          readAsString := fun _ => .ok "b",
          jpegDecode := fun _ => .ok [],
          modelRun := fun _ => .ok [1, 0, 0, 0, 0, 0, 0],
          storageGetOk := false,
          storageSetOk := true,
          nowId := "1",
          dateNow := "d" }
        { model := some (),
          selectedImage := some "leaf.jpg",
          prediction := none,
          loading := false,
          history := [],
          alerts := [] }).history = [] ∧
    (analyzeImage
        { manipulate := .ok "r.jpg",
          readAsString := fun _ => .ok "b",
          jpegDecode := fun _ => .ok [],
          modelRun := fun _ => .ok [1, 0, 0, 0, 0, 0, 0],
          storageGetOk := false,
          storageSetOk := true,
          nowId := "1",
          dateNow := "d" }
        { model := some (),
          selectedImage := some "leaf.jpg",
          prediction := none,
          loading := false,
          history := [],
          alerts := [] }).alerts = [] :=
  C10_storage_failure_isolated _ _ "leaf.jpg" (interpretScores [1, 0, 0, 0, 0, 0, 0])
    rfl rfl rfl (Or.inl rfl)
